import Mathlib

/-!
Verification development for the MD-to-PDF converter
(`lib/converter.js`, `lib/styles.js`).

Strings are modelled as `List Char`; JavaScript regular-expression
replacements are modelled by structurally recursive scanners that follow
the left-to-right, non-overlapping semantics of `String.prototype.replace`.
-/

namespace MdToPdf

/-- A character is "zero width garbage" when it lies in U+200B–U+200D
or is U+FEFF. -/
def isZeroWidth (c : Char) : Bool :=
  (0x200B ≤ c.toNat && c.toNat ≤ 0x200D) || c.toNat == 0xFEFF

/-- Step 1 of `cleanMarkdownContent`: globally replacing the character
class of zero-width and BOM code points by the empty string. -/
def removeZeroWidth (s : List Char) : List Char :=
  s.filter (fun c => !isZeroWidth c)

/-- Step 2 of `cleanMarkdownContent`: `replace(/ & /g, ' &amp; ')`,
scanning left to right, replacing non-overlapping occurrences of
`" & "` by `" &amp; "` and resuming after each match. -/
def replaceAmp : List Char → List Char
  | ' ' :: '&' :: ' ' :: rest => ' ' :: '&' :: 'a' :: 'm' :: 'p' :: ';' :: ' ' :: replaceAmp rest
  | c :: rest => c :: replaceAmp rest
  | [] => []

/-- Helper for step 3: scan for the first occurrence of `---` (the lazy
completion of `[\s\S]*?---`) and return what follows it. -/
def afterClosingDashes : List Char → Option (List Char)
  | '-' :: '-' :: '-' :: rest => some rest
  | _ :: rest => afterClosingDashes rest
  | [] => none

/-- Step 3 of `cleanMarkdownContent`: replacing the regular expression
`^---[\s\S]*?---` (no `m` or `g` flag) by the empty string.
The match is anchored at the start of the string: it requires the text to
begin with `---` and removes everything up to and including the earliest
later occurrence of `---`; if no closing `---` exists the string is
returned unchanged. -/
def removeFrontMatter (s : List Char) : List Char :=
  match s with
  | '-' :: '-' :: '-' :: rest =>
    match afterClosingDashes rest with
    | some r => r
    | none => s
  | _ => s

/-- `cleanMarkdownContent` from `lib/converter.js`: the three cleaning
steps applied in order (zero-width removal, space-delimited ampersand
escaping, leading front-matter removal). -/
def cleanMarkdownContent (rawContent : List Char) : List Char :=
  removeFrontMatter (replaceAmp (removeZeroWidth rawContent))

/-- `marked` lexer token, restricted to the structure `extractHeadings`
inspects: a `heading` token carries `depth`, `text` and its opaque `raw`
source; an `html` token carries `text` and `raw`; every other token kind
is an opaque payload passed through untouched. -/
inductive Token where
  | heading (depth : Nat) (text : List Char) (raw : List Char)
  | html (text : List Char) (raw : List Char)
  | other (payload : List Char)
deriving DecidableEq, Repr

/-- A Table-of-Contents record `{anchor, level, text}`. -/
structure TocEntry where
  anchor : List Char
  level : Nat
  text : List Char
deriving DecidableEq, Repr

/-- `replace(/\*\*/g, '')`: remove non-overlapping occurrences of `**`,
scanning left to right. -/
def removeDoubleStar : List Char → List Char
  | '*' :: '*' :: rest => removeDoubleStar rest
  | c :: rest => c :: removeDoubleStar rest
  | [] => []

/-- `replace(/\*/g, '')`: remove every `*`. -/
def removeSingleStar (s : List Char) : List Char :=
  s.filter (fun c => !(c == '*'))

/-- JavaScript `String.prototype.trim` whitespace class: WhiteSpace and
LineTerminator code points. -/
def isJsWhite (c : Char) : Bool :=
  let n := c.toNat
  (9 ≤ n && n ≤ 13) || n == 32 || n == 0xA0 || n == 0x1680 ||
  (0x2000 ≤ n && n ≤ 0x200A) || n == 0x2028 || n == 0x2029 ||
  n == 0x202F || n == 0x205F || n == 0x3000 || n == 0xFEFF

/-- JavaScript `String.prototype.trim`: drop whitespace from both ends. -/
def jsTrim (s : List Char) : List Char :=
  ((s.dropWhile isJsWhite).reverse.dropWhile isJsWhite).reverse

/-- The heading indexer's `cleanText` computation:
`token.text.replace(/\*\*/g, '').replace(/\*/g, '').trim()`. -/
def cleanHeadingText (text : List Char) : List Char :=
  jsTrim (removeSingleStar (removeDoubleStar text))

/-- A `\w` word character (no Unicode flag): `[A-Za-z0-9_]`. -/
def isWordChar (c : Char) : Bool :=
  ('a' ≤ c && c ≤ 'z') || ('A' ≤ c && c ≤ 'Z') || ('0' ≤ c && c ≤ '9') || c == '_'

/-- `replace(/[^\w]+/g, '-')`: replace every maximal run of non-word
characters by a single hyphen.  The flag records whether the scanner is
currently inside a non-word run. -/
def collapseNonWordAux : Bool → List Char → List Char
  | _, [] => []
  | inRun, c :: rest =>
    if isWordChar c then c :: collapseNonWordAux false rest
    else if inRun then collapseNonWordAux true rest
    else '-' :: collapseNonWordAux true rest

/-- `String.prototype.toLowerCase`, which on the ASCII range maps `A`–`Z`
to `a`–`z` and leaves other characters unchanged. -/
def jsToLower (s : List Char) : List Char :=
  s.map Char.toLower

/-- The heading indexer's `anchor` computation:
`cleanText.toLowerCase().replace(/[^\w]+/g, '-')`. -/
def anchorOf (cleanText : List Char) : List Char :=
  collapseNonWordAux false (jsToLower cleanText)

/-- The rewritten heading markup
`<h${token.depth} id="${anchor}">${cleanText}</h${token.depth}>`. -/
def headingHtml (depth : Nat) (anchor cleanText : List Char) : List Char :=
  ('<' :: 'h' :: (Nat.repr depth).toList) ++
  (' ' :: 'i' :: 'd' :: '=' :: '"' :: anchor) ++
  ('"' :: '>' :: cleanText) ++
  ('<' :: '/' :: 'h' :: (Nat.repr depth).toList) ++ ['>']

/-- `extractHeadings(tokens, {tocFilter, maxDepth})` from
`lib/converter.js`.  The JavaScript mutates the token array in place and
returns the TOC list; here the pair (mutated token sequence, TOC list) is
returned.  For each heading of depth ≤ maxDepth it computes `cleanText`
and `anchor`, pushes a `TocEntry` when `tocFilter.test(cleanText)` holds,
and unconditionally rewrites the token to an `html` token carrying the
anchored markup (the token's `raw` field is not reassigned). -/
def extractHeadings (tocFilter : List Char → Bool) (maxDepth : Nat) :
    List Token → List Token × List TocEntry
  | [] => ([], [])
  | Token.heading depth text raw :: ts =>
    if depth ≤ maxDepth then
      let cleanText := cleanHeadingText text
      let anchor := anchorOf cleanText
      let rest := extractHeadings tocFilter maxDepth ts
      if tocFilter cleanText then
        (Token.html (headingHtml depth anchor cleanText) raw :: rest.1,
         ⟨anchor, depth, cleanText⟩ :: rest.2)
      else
        (Token.html (headingHtml depth anchor cleanText) raw :: rest.1, rest.2)
    else
      let rest := extractHeadings tocFilter maxDepth ts
      (Token.heading depth text raw :: rest.1, rest.2)
  | t :: ts =>
    let rest := extractHeadings tocFilter maxDepth ts
    (t :: rest.1, rest.2)

/-- Opening fragment of the TOC template literal in `generateTocHtml`:
the text before the entry list, with `title` interpolated. -/
def tocOpen (title : List Char) : List Char :=
  ("\n    <div class=\"toc\">\n        <h1>".toList) ++ title ++
  ("</h1>\n        <ul>\n    ".toList)

/-- The list item appended for one TOC entry:
entries with `level > 3` receive the `toc-indent` class, all others an
empty class string. -/
def tocEntryHtml (entry : TocEntry) : List Char :=
  ("<li class=\"".toList) ++
  (if entry.level > 3 then "toc-indent".toList else []) ++
  ("\"><a href=\"#".toList) ++ entry.anchor ++ ("\">".toList) ++
  entry.text ++ ("</a></li>".toList)

/-- Closing fragment of `generateTocHtml`: list and container close,
followed by the forced page-break element. -/
def tocClose : List Char :=
  "</ul></div><div class=\"page-break\"></div>".toList

/-- `generateTocHtml(toc, title)` from `lib/converter.js`: the opening
fragment, one `<li>` per entry accumulated left to right, then the
closing fragment with the page break. -/
def generateTocHtml (toc : List TocEntry) (title : List Char) : List Char :=
  (toc.foldl (fun acc entry => acc ++ tocEntryHtml entry) (tocOpen title)) ++ tocClose

/-- `defaultStyles` from `lib/styles.js`. -/
def defaultStyles : List Char :=
  "
/* ========================
   BASE TYPOGRAPHY
   ======================== */
body \x7b 
    font-family: \"Times New Roman\", Times, serif; 
    font-size: 12pt; 
    line-height: 1.5; 
    color: #000; 
    margin: 0 auto; 
    padding: 40px; 
    max-width: 800px; 
    text-align: justify; 
\x7d

/* ========================
   TABLE OF CONTENTS
   ======================== */
.toc \x7b 
    margin-bottom: 50px; 
\x7d

.toc h1 \x7b 
    text-align: center; 
    border-bottom: 2px solid #000; 
    padding-bottom: 10px; 
\x7d

.toc ul \x7b 
    list-style: none; 
    padding: 0; 
\x7d

.toc li \x7b 
    margin-bottom: 8px; 
    border-bottom: 1px dotted #ccc; 
\x7d

.toc a \x7b 
    text-decoration: none; 
    color: #000; 
    display: block; 
    width: 100%; 
\x7d

.toc-indent \x7b 
    margin-left: 20px; 
    font-size: 0.95em; 
    color: #444; 
\x7d

/* ========================
   PAGE BREAKS
   ======================== */
.page-break \x7b 
    page-break-after: always; 
\x7d

/* ========================
   HEADINGS
   ======================== */
h1 \x7b 
    text-align: center; 
    font-size: 24pt; 
    font-weight: bold; 
    margin-bottom: 30px; 
    text-transform: uppercase; 
    margin-top: 0; 
\x7d

h2 \x7b 
    font-size: 18pt; 
    font-weight: bold; 
    border-bottom: 1px solid #000; 
    padding-bottom: 5px; 
    margin-top: 30px; 
\x7d

h3 \x7b 
    font-size: 16pt; 
    font-weight: bold; 
    margin-top: 25px; 
    color: #000; 
    text-decoration: underline;
\x7d

h4 \x7b 
    font-size: 14pt; 
    font-weight: bold; 
    margin-top: 20px; 
    color: #333; 
\x7d

/* ========================
   CONTENT ELEMENTS
   ======================== */
p \x7b 
    margin-bottom: 15px; 
\x7d

ul, ol \x7b 
    margin-bottom: 15px; 
    padding-left: 30px; 
\x7d

/* ========================
   TABLES
   ======================== */
table \x7b 
    border-collapse: collapse; 
    width: 100%; 
    margin: 20px 0; 
\x7d

th, td \x7b 
    border: 1px solid #000; 
    padding: 8px; 
    text-align: left; 
\x7d

th \x7b 
    background-color: #eee; 
    font-weight: bold; 
\x7d

/* ========================
   MATH (MathJax)
   ======================== */
.MathJax \x7b 
    font-size: 110%; 
\x7d

/* ========================
   PRINT OPTIMIZATION
   ======================== */
h1, h2, h3, h4 \x7b 
    page-break-after: avoid; 
\x7d

img, table, pre \x7b 
    page-break-inside: avoid; 
\x7d

/* ========================
   CODE BLOCKS
   ======================== */
pre \x7b
    background-color: #f5f5f5;
    padding: 15px;
    border-radius: 5px;
    overflow-x: auto;
    font-family: \x27Consolas\x27, \x27Monaco\x27, monospace;
    font-size: 10pt;
    line-height: 1.4;
    border: 1px solid #ddd;
\x7d

code \x7b
    font-family: \x27Consolas\x27, \x27Monaco\x27, monospace;
    background-color: #f0f0f0;
    padding: 2px 5px;
    border-radius: 3px;
    font-size: 0.9em;
\x7d

pre code \x7b
    background-color: transparent;
    padding: 0;
\x7d

/* ========================
   BLOCKQUOTES
   ======================== */
blockquote \x7b
    border-left: 4px solid #333;
    margin: 20px 0;
    padding: 10px 20px;
    background-color: #f9f9f9;
    font-style: italic;
\x7d
".toList

/-- `footerTemplate` from `lib/styles.js`. -/
def footerTemplate : List Char :=
  "
<div style=\"font-size:10px; font-family:\x27Times New Roman\x27; text-align:center; width:100%; color:black;\">
    Page <span class=\"pageNumber\"></span> of <span class=\"totalPages\"></span>
</div>
".toList

/-- `headerTemplate` from `lib/styles.js`. -/
def headerTemplate : List Char :=
  "<div></div>".toList

/-- `highlightTheme` from `lib/styles.js`. -/
def highlightTheme : List Char :=
  "https://cdnjs.cloudflare.com/ajax/libs/highlight.js/11.7.0/styles/arduino-light.min.css".toList

/-- `mathJaxUrl` from `lib/styles.js`. -/
def mathJaxUrl : List Char :=
  "https://cdn.jsdelivr.net/npm/mathjax@3/es5/tex-mml-chtml.js".toList

/-- `generateFullHtml(tocHtml, bodyContent, {customStyles})` from
`lib/converter.js`: the complete HTML document template with the
highlight theme link, the MathJax configuration, the style block
(default styles then custom styles) and a body of `tocHtml` followed by
`bodyContent`. -/
def generateFullHtml (tocHtml bodyContent customStyles : List Char) : List Char :=
  ("\n    <!DOCTYPE html>\n    <html>\n    <head>\n        <meta charset=\"UTF-8\">\n        <link rel=\"stylesheet\" href=\"".toList) ++
  highlightTheme ++
  ("\">\n        <script>\n        window.MathJax = \x7b\n            tex: \x7b inlineMath: [[\x27$\x27, \x27$\x27], [\x27\\\\(\x27, \x27\\\\)\x27]] \x7d,\n            svg: \x7b fontCache: \x27global\x27 \x7d\n        \x7d;\n        </script>\n        <script id=\"MathJax-script\" async src=\"".toList) ++
  mathJaxUrl ++
  ("\"></script>\n        <style>\n            ".toList) ++
  defaultStyles ++
  ("\n            ".toList) ++
  customStyles ++
  ("\n        </style>\n    </head>\n    <body>\n        ".toList) ++
  tocHtml ++
  ("\n        ".toList) ++
  bodyContent ++
  ("\n    </body>\n    </html>\n    ".toList)

/-- A thrown JavaScript error, reduced to its `message`. -/
structure JsError where
  message : List Char
deriving DecidableEq, Repr

/-- The orchestrator result object: `\x7bsuccess: true, message,
outputPath\x7d` or `\x7bsuccess: false, message\x7d`. -/
inductive ConversionResult where
  | success (message : List Char) (outputPath : List Char)
  | failure (message : List Char)
deriving DecidableEq, Repr

/-- The options object accepted by `convertMdToPdf`; a `none` field is an
absent property, whose default is supplied by the destructuring at the
top of the function. -/
structure ConversionOptions where
  chromePath : Option (List Char)
  noToc : Option Bool
  tocTitle : Option (List Char)
  tocFilter : Option (List Char)
  format : Option (List Char)
  landscape : Option Bool
  marginTop : Option (List Char)
  marginBottom : Option (List Char)
  marginLeft : Option (List Char)
  marginRight : Option (List Char)

/-- The argument record of the `page.pdf` call (step 9). -/
structure PdfJob where
  executablePath : List Char
  fullHtml : List Char
  path : List Char
  format : List Char
  landscape : Bool
  printBackground : Bool
  marginTop : List Char
  marginBottom : List Char
  marginLeft : List Char
  marginRight : List Char
  displayHeaderFooter : Bool
  footer : List Char
  header : List Char

/-- The external collaborators of the orchestrator.  Fallible effects
(file read, `marked.lexer`, `new RegExp`, `marked.parser`, and the
whole Puppeteer launch/render/write sequence) return `Except JsError`:
an `Except.error` is a thrown exception. -/
structure World where
  resolve : List Char → List Char
  existsFile : List Char → Bool
  platformPaths : List (List Char)
  readFileSync : List Char → Except JsError (List Char)
  lexer : List Char → Except JsError (List Token)
  newRegExpI : List Char → Except JsError (List Char → Bool)
  parser : List Token → Except JsError (List Char)
  pdf : PdfJob → Except JsError Unit

/-- `findChromePath` from `lib/converter.js`: return the first candidate
path that is truthy (non-empty) and exists, else `null`. -/
def findChromePath (existsFile : List Char → Bool) : List (List Char) → Option (List Char)
  | [] => none
  | p :: ps => if p ≠ [] ∧ existsFile p then some p else findChromePath existsFile ps

/-- JavaScript `a || b` on the chrome path: a present, non-empty custom
path wins, otherwise the auto-detected path. -/
def jsOrPath : Option (List Char) → Option (List Char) → Option (List Char)
  | some p, alt => if p = [] then alt else some p
  | none, alt => alt

/-- `convertMdToPdf(inputFile, outputFile, options)` from
`lib/converter.js`.  `Except.ok` is a value returned to the caller;
`Except.error` is an exception propagating out of the function.  The
guard clauses return failure results; the `try` block wraps only the
Puppeteer sequence (modelled by `World.pdf`), whose exception is caught
and converted to a failure result.  The read, clean, lexing, RegExp
construction, heading extraction, parsing and assembly steps run outside
the `try`. -/
def convertMdToPdf (w : World) (inputFile outputFile : List Char)
    (options : ConversionOptions) : Except JsError ConversionResult :=
  let noToc := options.noToc.getD false
  let tocTitle := options.tocTitle.getD ("Table of Contents".toList)
  let tocFilter := options.tocFilter.getD ("Topic|Summary|Section|Detailed".toList)
  let format := options.format.getD ("A4".toList)
  let landscape := options.landscape.getD false
  let marginTop := options.marginTop.getD ("25.4mm".toList)
  let marginBottom := options.marginBottom.getD ("25.4mm".toList)
  let marginLeft := options.marginLeft.getD ("25.4mm".toList)
  let marginRight := options.marginRight.getD ("25.4mm".toList)
  let inputPath := w.resolve inputFile
  let outputPath := w.resolve outputFile
  if !(w.existsFile inputPath) then
    Except.ok (ConversionResult.failure
      (("Input file not found: \"".toList) ++ inputFile ++ ("\"".toList)))
  else
    match jsOrPath options.chromePath (findChromePath w.existsFile w.platformPaths) with
    | none => Except.ok (ConversionResult.failure
        ("Chrome/Chromium not found. Please install Chrome or specify path with --chrome-path".toList))
    | some chromePath => do
      let rawContent ← w.readFileSync inputPath
      let cleanContent := cleanMarkdownContent rawContent
      let tokens ← w.lexer cleanContent
      let tocFilterRegex ← w.newRegExpI tocFilter
      let indexed := extractHeadings tocFilterRegex 4 tokens
      let bodyContent ← w.parser indexed.1
      let tocHtml := if noToc then [] else generateTocHtml indexed.2 tocTitle
      let fullHtml := generateFullHtml tocHtml bodyContent []
      match w.pdf ⟨chromePath, fullHtml, outputPath, format, landscape, true,
                   marginTop, marginBottom, marginLeft, marginRight, true,
                   footerTemplate, headerTemplate⟩ with
      | Except.ok _ => Except.ok (ConversionResult.success
          (("PDF generated successfully: \"".toList) ++ outputFile ++ ("\"".toList))
          outputPath)
      | Except.error e => Except.ok (ConversionResult.failure
          (("PDF generation failed: ".toList) ++ e.message))

/-- `pat` is an initial segment of `s`. -/
def leadsWith : List Char → List Char → Bool
  | [], _ => true
  | _ :: _, [] => false
  | p :: ps, c :: cs => p == c && leadsWith ps cs

/-- `pat` occurs as a contiguous segment somewhere in `s`. -/
def occursIn (pat : List Char) : List Char → Bool
  | [] => leadsWith pat []
  | c :: cs => leadsWith pat (c :: cs) || occursIn pat cs

/-- The in-place rewrite `extractHeadings` applies to one token.  It does
not depend on the TOC filter: a heading of depth ≤ maxDepth becomes an
`html` token carrying the anchored markup, every other token is kept. -/
def rewriteToken (maxDepth : Nat) : Token → Token
  | Token.heading depth text raw =>
    if depth ≤ maxDepth then
      Token.html (headingHtml depth (anchorOf (cleanHeadingText text)) (cleanHeadingText text)) raw
    else Token.heading depth text raw
  | t => t

/-- The TOC entry one token contributes: only a heading of depth ≤
maxDepth whose cleaned text matches the filter contributes one. -/
def tocEntryOf (tocFilter : List Char → Bool) (maxDepth : Nat) : Token → Option TocEntry
  | Token.heading depth text _ =>
    if depth ≤ maxDepth then
      if tocFilter (cleanHeadingText text) then
        some ⟨anchorOf (cleanHeadingText text), depth, cleanHeadingText text⟩
      else none
    else none
  | _ => none

/-- A token the indexer leaves alone: any non-heading token, and any
heading deeper than maxDepth. -/
def untouchedByIndexer (maxDepth : Nat) : Token → Prop
  | Token.heading depth _ _ => maxDepth < depth
  | _ => True

/-- A world in which the file exists but reading it throws (for example
the file disappears or loses read permission between the existence check
and the read). -/
def errWorld : World :=
  ⟨fun p => p, fun _ => true, [],
   fun _ => Except.error ⟨("EACCES: permission denied".toList)⟩,
   fun _ => Except.ok [], fun _ => Except.ok (fun _ => false),
   fun _ => Except.ok [], fun _ => Except.ok ()⟩

/-- Options supplying only a custom chrome path. -/
def chromeOnlyOptions : ConversionOptions :=
  ⟨some ("/usr/bin/chromium".toList), none, none, none, none, none, none, none, none, none⟩

/-- A world in which every pipeline collaborator returns normally but
the Puppeteer launch/render/write sequence throws. -/
def pdfCrashWorld : World :=
  ⟨fun p => p, fun _ => true, [],
   fun _ => Except.ok ("# hi".toList),
   fun _ => Except.ok [], fun _ => Except.ok (fun _ => false),
   fun _ => Except.ok [], fun _ => Except.error ⟨("net::ERR_ABORTED".toList)⟩⟩

lemma extractHeadings_eq (f : List Char → Bool) (m : Nat) (ts : List Token) :
    extractHeadings f m ts = (ts.map (rewriteToken m), ts.filterMap (tocEntryOf f m)) := by
  induction ts with
  | nil => rfl
  | cons t ts ih =>
    cases t with
    | heading d x r =>
      by_cases hd : d ≤ m
      · by_cases hf : f (cleanHeadingText x) = true
        · simp [extractHeadings, rewriteToken, tocEntryOf, hd, hf, ih]
        · simp [extractHeadings, rewriteToken, tocEntryOf, hd, hf, ih]
      · simp [extractHeadings, rewriteToken, tocEntryOf, hd, ih]
    | html x r => simp [extractHeadings, rewriteToken, tocEntryOf, ih]
    | other p => simp [extractHeadings, rewriteToken, tocEntryOf, ih]

lemma rewriteToken_eq_self (m : Nat) (t : Token) (h : untouchedByIndexer m t) :
    rewriteToken m t = t := by
  cases t with
  | heading d x r =>
    have hd : ¬ d ≤ m := by
      simp only [untouchedByIndexer] at h
      omega
    simp [rewriteToken, hd]
  | html x r => rfl
  | other p => rfl

lemma replaceAmp_mem (s : List Char) :
    ∀ c ∈ replaceAmp s, c ∈ s ∨ c ∈ (' ' :: '&' :: 'a' :: 'm' :: 'p' :: ';' :: [' ']) := by
  induction s using replaceAmp.induct with
  | case1 rest ih =>
    intro c hc
    simp only [replaceAmp, List.mem_cons] at hc
    rcases hc with h|h|h|h|h|h|h|h
    · right; simp [h]
    · right; simp [h]
    · right; simp [h]
    · right; simp [h]
    · right; simp [h]
    · right; simp [h]
    · right; simp [h]
    · rcases ih c h with h' | h'
      · left
        exact List.mem_cons_of_mem _ (List.mem_cons_of_mem _ (List.mem_cons_of_mem _ h'))
      · right; exact h'
  | case2 c rest hne ih =>
    intro d hd
    unfold replaceAmp at hd
    split at hd
    · rename_i x rest2 heq
      injection heq with h1 h2
      exact absurd h2 (fun hh => hne rest2 h1 hh)
    · rename_i x c2 rest2 hguard heq
      injection heq with h1 h2
      subst h1; subst h2
      rcases List.mem_cons.mp hd with h | h
      · left; simp [h]
      · rcases ih d h with h' | h'
        · left; exact List.mem_cons_of_mem _ h'
        · right; exact h'
    · exact absurd hd (List.not_mem_nil d)
  | case3 => simp [replaceAmp]

lemma replaceAmp_of_not_occurs (s : List Char)
    (h : occursIn (' ' :: '&' :: [' ']) s = false) : replaceAmp s = s := by
  induction s using replaceAmp.induct with
  | case1 rest ih =>
    exfalso
    simp [occursIn, leadsWith] at h
  | case2 c rest hne ih =>
    have hrest : occursIn (' ' :: '&' :: [' ']) rest = false := by
      simp only [occursIn, Bool.or_eq_false_iff] at h
      exact h.2
    unfold replaceAmp
    split
    · rename_i rest2 heq
      injection heq with h1 h2
      exact absurd h2 (fun hh => hne rest2 h1 hh)
    · rename_i x c2 rest2 hguard heq
      injection heq with h1 h2
      subst h1; subst h2
      rw [ih hrest]
    · rename_i x heq
      exact absurd heq (List.cons_ne_nil c rest)
  | case3 => rfl

lemma afterClosingDashes_mem (s : List Char) :
    ∀ r, afterClosingDashes s = some r → ∀ c ∈ r, c ∈ s := by
  induction s using afterClosingDashes.induct with
  | case1 rest =>
    intro r hr c hc
    simp only [afterClosingDashes] at hr
    injection hr with hr
    subst hr
    simp [hc]
  | case2 x rest hne ih =>
    intro r hr c hc
    unfold afterClosingDashes at hr
    split at hr
    · rename_i rest2 heq
      injection heq with h1 h2
      exact absurd h2 (fun hh => hne rest2 h1 hh)
    · rename_i y c2 rest2 hguard heq
      injection heq with h1 h2
      subst h1; subst h2
      exact List.mem_cons_of_mem _ (ih r hr c hc)
    · exact absurd hr (by simp)
  | case3 =>
    intro r hr
    exact absurd hr (by simp [afterClosingDashes])

lemma removeFrontMatter_mem (s : List Char) : ∀ c ∈ removeFrontMatter s, c ∈ s := by
  intro c hc
  unfold removeFrontMatter at hc
  split at hc
  case _ rest =>
    split at hc
    case _ r hr =>
      have hmem := afterClosingDashes_mem rest r hr c hc
      exact List.mem_cons_of_mem _ (List.mem_cons_of_mem _ (List.mem_cons_of_mem _ hmem))
    case _ => exact hc
  case _ => exact hc

lemma removeZeroWidth_all (s : List Char) :
    ∀ c ∈ removeZeroWidth s, isZeroWidth c = false := by
  intro c hc
  have := List.of_mem_filter hc
  simpa using this

lemma removeZeroWidth_id (s : List Char)
    (h : ∀ c ∈ s, isZeroWidth c = false) : removeZeroWidth s = s := by
  apply List.filter_eq_self.mpr
  intro c hc
  simp [h c hc]

lemma cleanMarkdownContent_zw_free (x : List Char) :
    ∀ c ∈ cleanMarkdownContent x, isZeroWidth c = false := by
  intro c hc
  have h1 : c ∈ replaceAmp (removeZeroWidth x) :=
    removeFrontMatter_mem _ c hc
  rcases replaceAmp_mem _ c h1 with h2 | h2
  · exact removeZeroWidth_all x c h2
  · fin_cases h2 <;> decide

lemma removeFrontMatter_of_not_leads (s : List Char)
    (h : leadsWith ('-' :: '-' :: ['-']) s = false) : removeFrontMatter s = s := by
  unfold removeFrontMatter
  split
  · exfalso; simp [leadsWith] at h
  · rfl

/-- C2 (counterexample): the sanitizer is not idempotent.  On the input
consisting of a space-ampersand-space-ampersand-space sequence, the first
pass escapes only the first delimited ampersand and its output again
contains the pattern, so a second pass changes the string. -/
theorem cleanMarkdownContent_not_idempotent :
    cleanMarkdownContent (cleanMarkdownContent (" & & ".toList)) ≠
      cleanMarkdownContent (" & & ".toList) := by
  decide

/-- C2 (amended): the sanitizer is idempotent on every input whose
sanitized output neither contains the space-delimited ampersand pattern
nor begins with three dashes.  Zero-width removal never re-triggers on
sanitizer output; the other two steps are the identity under these
conditions. -/
theorem cleanMarkdownContent_idem_of_stable (x : List Char)
    (h1 : occursIn (" & ".toList) (cleanMarkdownContent x) = false)
    (h2 : leadsWith ("---".toList) (cleanMarkdownContent x) = false) :
    cleanMarkdownContent (cleanMarkdownContent x) = cleanMarkdownContent x := by
  show removeFrontMatter (replaceAmp (removeZeroWidth (cleanMarkdownContent x))) =
    cleanMarkdownContent x
  rw [removeZeroWidth_id _ (cleanMarkdownContent_zw_free x),
      replaceAmp_of_not_occurs _ h1,
      removeFrontMatter_of_not_leads _ h2]

/-- C2 (witness): the amended idempotence theorem applied to the concrete
input "a & b". -/
theorem cleanMarkdownContent_idem_of_stable_witness :
    occursIn (" & ".toList) (cleanMarkdownContent ("a & b".toList)) = false ∧
    leadsWith ("---".toList) (cleanMarkdownContent ("a & b".toList)) = false ∧
    cleanMarkdownContent (cleanMarkdownContent ("a & b".toList)) =
      cleanMarkdownContent ("a & b".toList) :=
  ⟨by decide, by decide,
   cleanMarkdownContent_idem_of_stable ("a & b".toList) (by decide) (by decide)⟩

/-- C3 (counterexample): on the spec's own example the sanitizer does not
yield "Body": the regular expression consumes the closing three dashes
but not the newline after them. -/
theorem frontMatter_example_counterexample :
    cleanMarkdownContent ("---\nkey: v\n---\nBody".toList) ≠ ("Body".toList) := by
  decide

/-- C3 (amended): front-matter removal strips a leading block delimited
by three-dash sequences that need not stand on lines of their own, and
keeps everything after the closing dashes including the newline: the
spec's example yields "\nBody", an inline block is also stripped, and a
text that does not begin with three dashes is left unchanged. -/
theorem frontMatter_removal_amended :
    cleanMarkdownContent ("---\nkey: v\n---\nBody".toList) = ("\nBody".toList) ∧
    cleanMarkdownContent ("---a---b".toList) = ("b".toList) ∧
    ∀ s, leadsWith ("---".toList) s = false → removeFrontMatter s = s :=
  ⟨by decide, by decide, fun s h => removeFrontMatter_of_not_leads s h⟩

/-- C3 (witness): the amended theorem's universal clause applied to the
concrete string "Body". -/
theorem frontMatter_removal_amended_witness :
    leadsWith ("---".toList) ("Body".toList) = false ∧
    removeFrontMatter ("Body".toList) = ("Body".toList) :=
  ⟨by decide, frontMatter_removal_amended.2.2 ("Body".toList) (by decide)⟩

/-- C7: the heading text consisting of "Q.1) Self-awareness" wrapped in
double asterisks cleans to "Q.1) Self-awareness" and yields the anchor
"q-1-self-awareness". -/
theorem emphasis_stripping_example :
    cleanHeadingText ("**Q.1) Self-awareness**".toList) = ("Q.1) Self-awareness".toList) ∧
    anchorOf (cleanHeadingText ("**Q.1) Self-awareness**".toList)) =
      ("q-1-self-awareness".toList) := by
  decide

/-- C4: heading indexing is the pointwise rewrite `rewriteToken` (which
does not consult the filter) paired with the in-order `filterMap` of
`tocEntryOf` (where alone the filter decides membership); consequently a
heading of depth ≤ maxDepth at any position is rewritten to the anchored
markup regardless of the filter. -/
theorem extractHeadings_rewrite_filter_independent
    (f : List Char → Bool) (m : Nat) (ts : List Token) :
    (extractHeadings f m ts).1 = ts.map (rewriteToken m) ∧
    (extractHeadings f m ts).2 = ts.filterMap (tocEntryOf f m) ∧
    ∀ (i : Nat) (d : Nat) (x r : List Char), ts[i]? = some (Token.heading d x r) → d ≤ m →
      (extractHeadings f m ts).1[i]? =
        some (Token.html (headingHtml d (anchorOf (cleanHeadingText x)) (cleanHeadingText x)) r) := by
  refine ⟨by rw [extractHeadings_eq], by rw [extractHeadings_eq], ?_⟩
  intro i d x r hi hd
  rw [extractHeadings_eq]
  simp only [List.getElem?_map, hi, Option.map_some']
  simp [rewriteToken, hd]

/-- C4 (witness): the rewrite clause applied to a depth-3 heading with
the default-filter word "Topic" in its text. -/
theorem extractHeadings_rewrite_filter_independent_witness :
    (([Token.heading 3 ("Topic One".toList) ("### Topic One".toList)] :
        List Token)[0]? = some (Token.heading 3 ("Topic One".toList) ("### Topic One".toList))) ∧
    3 ≤ 4 ∧
    (extractHeadings (fun s => occursIn ("Topic".toList) s) 4
        [Token.heading 3 ("Topic One".toList) ("### Topic One".toList)]).1[0]? =
      some (Token.html (headingHtml 3 (anchorOf (cleanHeadingText ("Topic One".toList)))
        (cleanHeadingText ("Topic One".toList))) ("### Topic One".toList)) :=
  ⟨by decide, by decide,
   (extractHeadings_rewrite_filter_independent (fun s => occursIn ("Topic".toList) s) 4
      [Token.heading 3 ("Topic One".toList) ("### Topic One".toList)]).2.2 0 3
      ("Topic One".toList) ("### Topic One".toList) (by decide) (by decide)⟩

/-- C5: under maxDepth 4 (the value the orchestrator passes), a depth-5
heading keeps its heading kind with no anchor and no TOC entry, while a
depth-4 heading is rewritten to anchored markup and its cleaned text is
evaluated against the filter to decide TOC membership. -/
theorem extractHeadings_depth_boundary (f : List Char → Bool) (text raw : List Char) :
    extractHeadings f 4 [Token.heading 5 text raw] = ([Token.heading 5 text raw], []) ∧
    extractHeadings f 4 [Token.heading 4 text raw] =
      ([Token.html (headingHtml 4 (anchorOf (cleanHeadingText text)) (cleanHeadingText text)) raw],
       if f (cleanHeadingText text) then
         [⟨anchorOf (cleanHeadingText text), 4, cleanHeadingText text⟩] else []) := by
  constructor
  · simp [extractHeadings]
  · by_cases hf : f (cleanHeadingText text) = true
    · simp [extractHeadings, hf]
    · simp [extractHeadings, hf]

/-- C6: the heading indexer neither adds nor removes blocks, and every
non-heading block and every heading deeper than maxDepth is returned
identical at its original position. -/
theorem extractHeadings_frame (f : List Char → Bool) (m : Nat) (ts : List Token) :
    (extractHeadings f m ts).1.length = ts.length ∧
    ∀ (i : Nat) (t : Token), ts[i]? = some t → untouchedByIndexer m t →
      (extractHeadings f m ts).1[i]? = some t := by
  have he := extractHeadings_eq f m ts
  constructor
  · rw [he]; simp
  · intro i t hi hu
    rw [he]
    simp only [List.getElem?_map, hi, Option.map_some']
    rw [rewriteToken_eq_self m t hu]

/-- C6 (witness): the frame theorem applied to a paragraph-like token and
a depth-5 heading under maxDepth 4. -/
theorem extractHeadings_frame_witness :
    (([Token.other ('p' :: []), Token.heading 5 ('x' :: []) ('y' :: [])] :
        List Token)[1]? = some (Token.heading 5 ('x' :: []) ('y' :: []))) ∧
    untouchedByIndexer 4 (Token.heading 5 ('x' :: []) ('y' :: [])) ∧
    (extractHeadings (fun _ => true) 4
        [Token.other ('p' :: []), Token.heading 5 ('x' :: []) ('y' :: [])]).1[1]? =
      some (Token.heading 5 ('x' :: []) ('y' :: [])) :=
  ⟨by decide, by show (4:Nat) < 5; decide,
   (extractHeadings_frame (fun _ => true) 4
      [Token.other ('p' :: []), Token.heading 5 ('x' :: []) ('y' :: [])]).2 1
      (Token.heading 5 ('x' :: []) ('y' :: [])) (by decide)
      (by show (4:Nat) < 5; decide)⟩

lemma foldl_tocEntryHtml (l : List TocEntry) : ∀ init : List Char,
    l.foldl (fun acc e => acc ++ tocEntryHtml e) init = init ++ (l.map tocEntryHtml).flatten := by
  induction l with
  | nil => intro init; simp
  | cons e l ih => intro init; simp [ih, List.append_assoc]

lemma generateTocHtml_eq (toc : List TocEntry) (title : List Char) :
    generateTocHtml toc title = tocOpen title ++ (toc.map tocEntryHtml).flatten ++ tocClose := by
  unfold generateTocHtml
  rw [foldl_tocEntryHtml]

lemma generateTocHtml_mem_split (toc : List TocEntry) (title : List Char)
    (e : TocEntry) (he : e ∈ toc) :
    ∃ pre post, generateTocHtml toc title = pre ++ tocEntryHtml e ++ post := by
  obtain ⟨l1, l2, rfl⟩ := List.append_of_mem he
  refine ⟨tocOpen title ++ (l1.map tocEntryHtml).flatten,
          (l2.map tocEntryHtml).flatten ++ tocClose, ?_⟩
  rw [generateTocHtml_eq]
  simp [List.append_assoc]

lemma tocEntryHtml_link_split (e : TocEntry) :
    ∃ u v, tocEntryHtml e =
      u ++ (("<a href=\"#".toList) ++ e.anchor ++ ("\">".toList) ++ e.text ++
        ("</a>".toList)) ++ v := by
  refine ⟨("<li class=\"".toList) ++ (if e.level > 3 then "toc-indent".toList else []) ++
    ("\">".toList), ("</li>".toList), ?_⟩
  have hs1 : ("\"><a href=\"#".toList) = ("\">".toList) ++ ("<a href=\"#".toList) := by decide
  have hs2 : ("</a></li>".toList) = ("</a>".toList) ++ ("</li>".toList) := by decide
  unfold tocEntryHtml
  rw [hs1, hs2]
  simp [List.append_assoc]

lemma removeDoubleStar_mem (s : List Char) : ∀ c ∈ removeDoubleStar s, c ∈ s := by
  induction s using removeDoubleStar.induct with
  | case1 rest ih =>
    intro c hc
    simp only [removeDoubleStar] at hc
    simp [ih c hc]
  | case2 c rest hne ih =>
    intro d hd
    unfold removeDoubleStar at hd
    split at hd
    · rename_i x rest2 heq
      injection heq with h1 h2
      exact absurd h2 (fun hh => hne rest2 h1 hh)
    · rename_i x c2 rest2 hguard heq
      injection heq with h1 h2
      subst h1; subst h2
      rcases List.mem_cons.mp hd with h | h
      · simp [h]
      · exact List.mem_cons_of_mem _ (ih d h)
    · exact absurd hd (List.not_mem_nil d)
  | case3 => simp [removeDoubleStar]

lemma cleanHeadingText_nil (text : List Char)
    (h : ∀ c ∈ text, c = '*' ∨ isJsWhite c = true) : cleanHeadingText text = [] := by
  have h1 : ∀ c ∈ removeDoubleStar text, c = '*' ∨ isJsWhite c = true :=
    fun c hc => h c (removeDoubleStar_mem text c hc)
  have h2 : ∀ c ∈ removeSingleStar (removeDoubleStar text), isJsWhite c = true := by
    intro c hc
    have hmem := List.mem_filter.mp hc
    rcases h1 c hmem.1 with h' | h'
    · exfalso
      rw [h'] at hmem
      simp at hmem
    · exact h'
  have h3 : (removeSingleStar (removeDoubleStar text)).dropWhile isJsWhite = [] :=
    List.dropWhile_eq_nil_iff.mpr (fun x hx => by simp [h2 x hx])
  simp [cleanHeadingText, jsTrim, h3]

/-- C8: the TOC renderer emits for each entry a list item whose class is
the indentation class exactly when the entry's level exceeds 3 and empty
otherwise; on an empty entry sequence it still renders the title, an
empty list and the page break; and every fragment it returns ends in the
forced page-break element. -/
theorem generateTocHtml_renders (toc : List TocEntry) (title : List Char) :
    (∀ e ∈ toc, ∃ pre post, generateTocHtml toc title =
      pre ++ (("<li class=\"".toList) ++
        (if e.level > 3 then "toc-indent".toList else []) ++
        ("\"><a href=\"#".toList) ++ e.anchor ++ ("\">".toList) ++ e.text ++
        ("</a></li>".toList)) ++ post) ∧
    generateTocHtml [] title =
      (("\n    <div class=\"toc\">\n        <h1>".toList) ++ title ++
       ("</h1>\n        <ul>\n    ".toList)) ++
      ("</ul></div><div class=\"page-break\"></div>".toList) ∧
    ∃ pre, generateTocHtml toc title = pre ++ ("<div class=\"page-break\"></div>".toList) := by
  refine ⟨?_, ?_, ?_⟩
  · intro e he
    obtain ⟨pre, post, h⟩ := generateTocHtml_mem_split toc title e he
    exact ⟨pre, post, h⟩
  · rfl
  · have h : tocClose = ("</ul></div>".toList) ++ ("<div class=\"page-break\"></div>".toList) := by
      decide
    refine ⟨(toc.foldl (fun acc e => acc ++ tocEntryHtml e) (tocOpen title)) ++
      ("</ul></div>".toList), ?_⟩
    unfold generateTocHtml
    rw [h, ← List.append_assoc]

/-- C8 (witness): the rendering theorem applied to a single level-4 entry
(which receives the indentation class). -/
theorem generateTocHtml_renders_witness :
    ((⟨('a' :: []), 4, ('T' :: [])⟩ : TocEntry) ∈
      ([⟨('a' :: []), 4, ('T' :: [])⟩] : List TocEntry)) ∧
    (∃ pre post, generateTocHtml [⟨('a' :: []), 4, ('T' :: [])⟩] ("Table of Contents".toList) =
      pre ++ (("<li class=\"".toList) ++
        (if (4:Nat) > 3 then "toc-indent".toList else []) ++
        ("\"><a href=\"#".toList) ++ ('a' :: []) ++ ("\">".toList) ++ ('T' :: []) ++
        ("</a></li>".toList)) ++ post) :=
  ⟨by decide,
   (generateTocHtml_renders [⟨('a' :: []), 4, ('T' :: [])⟩] ("Table of Contents".toList)).1
     ⟨('a' :: []), 4, ('T' :: [])⟩ (by decide)⟩

/-- C9: every TOC entry returned by the indexer comes from a heading
block that has been rewritten to markup carrying exactly the entry's
anchor as its id and the entry's text as its content, and the rendered
TOC contains for that entry a link to "#" followed by exactly that
anchor with exactly that text — so every TOC link targets an id present
in the rewritten block sequence. -/
theorem toc_link_consistency (f : List Char → Bool) (m : Nat) (ts : List Token)
    (title : List Char) :
    ∀ e ∈ (extractHeadings f m ts).2,
      (∃ (i : Nat) (x raw : List Char),
        ts[i]? = some (Token.heading e.level x raw) ∧
        cleanHeadingText x = e.text ∧
        anchorOf e.text = e.anchor ∧
        (extractHeadings f m ts).1[i]? =
          some (Token.html (headingHtml e.level e.anchor e.text) raw)) ∧
      (∃ pre post, generateTocHtml (extractHeadings f m ts).2 title =
        pre ++ (("<a href=\"#".toList) ++ e.anchor ++ ("\">".toList) ++ e.text ++
          ("</a>".toList)) ++ post) := by
  intro e he
  constructor
  · have he2 := he
    rw [extractHeadings_eq] at he2
    simp only [List.mem_filterMap] at he2
    obtain ⟨t, ht, hsome⟩ := he2
    obtain ⟨i, hi⟩ := List.mem_iff_getElem?.mp ht
    cases t with
    | heading d x raw =>
      simp only [tocEntryOf] at hsome
      split at hsome
      case isTrue hdm =>
        split at hsome
        case isTrue hf =>
          injection hsome with hsome
          subst hsome
          refine ⟨i, x, raw, hi, rfl, rfl, ?_⟩
          rw [extractHeadings_eq]
          simp only [List.getElem?_map, hi, Option.map_some']
          simp [rewriteToken, hdm]
        case isFalse => exact absurd hsome (by simp)
      case isFalse => exact absurd hsome (by simp)
    | html x raw => exact absurd hsome (by simp [tocEntryOf])
    | other p => exact absurd hsome (by simp [tocEntryOf])
  · obtain ⟨pre, post, hsplit⟩ :=
      generateTocHtml_mem_split (extractHeadings f m ts).2 title e he
    obtain ⟨u, v, hlink⟩ := tocEntryHtml_link_split e
    refine ⟨pre ++ u, v ++ post, ?_⟩
    rw [hsplit, hlink]
    simp [List.append_assoc]

/-- C9 (witness): the consistency theorem applied to a depth-3 heading
"Topic One" under a filter matching "Topic". -/
theorem toc_link_consistency_witness :
    ((⟨("topic-one".toList), 3, ("Topic One".toList)⟩ : TocEntry) ∈
      (extractHeadings (fun s => occursIn ("Topic".toList) s) 4
        [Token.heading 3 ("Topic One".toList) ("### Topic One".toList)]).2) ∧
    ((∃ (i : Nat) (x raw : List Char),
        ([Token.heading 3 ("Topic One".toList) ("### Topic One".toList)] : List Token)[i]? =
          some (Token.heading 3 x raw) ∧
        cleanHeadingText x = ("Topic One".toList) ∧
        anchorOf ("Topic One".toList) = ("topic-one".toList) ∧
        (extractHeadings (fun s => occursIn ("Topic".toList) s) 4
          [Token.heading 3 ("Topic One".toList) ("### Topic One".toList)]).1[i]? =
          some (Token.html (headingHtml 3 ("topic-one".toList) ("Topic One".toList)) raw)) ∧
     (∃ pre post, generateTocHtml
        (extractHeadings (fun s => occursIn ("Topic".toList) s) 4
          [Token.heading 3 ("Topic One".toList) ("### Topic One".toList)]).2 ("T".toList) =
        pre ++ (("<a href=\"#".toList) ++ ("topic-one".toList) ++ ("\">".toList) ++
          ("Topic One".toList) ++ ("</a>".toList)) ++ post)) :=
  ⟨by decide,
   toc_link_consistency (fun s => occursIn ("Topic".toList) s) 4
     [Token.heading 3 ("Topic One".toList) ("### Topic One".toList)] ("T".toList)
     ⟨("topic-one".toList), 3, ("Topic One".toList)⟩ (by decide)⟩

/-- C10: a heading of depth at most maxDepth whose text is only
asterisks and whitespace is processed without rejection: its cleaned
text and anchor are both empty and it is rewritten to markup with an
empty id and empty content, with TOC membership still decided by the
filter on the empty string. -/
theorem empty_anchor_heading (f : List Char → Bool) (m d : Nat) (text raw : List Char)
    (hd : d ≤ m) (h : ∀ c ∈ text, c = '*' ∨ isJsWhite c = true) :
    cleanHeadingText text = [] ∧
    anchorOf (cleanHeadingText text) = [] ∧
    extractHeadings f m [Token.heading d text raw] =
      ([Token.html (headingHtml d [] []) raw],
       if f [] then [⟨[], d, []⟩] else []) := by
  have hclean := cleanHeadingText_nil text h
  refine ⟨hclean, by rw [hclean]; rfl, ?_⟩
  by_cases hf : f [] = true
  · simp [extractHeadings, hd, hclean, hf, anchorOf, jsToLower, collapseNonWordAux]
  · simp [extractHeadings, hd, hclean, hf, anchorOf, jsToLower, collapseNonWordAux]

/-- C10 (witness): the empty-anchor theorem applied to a depth-2 heading
whose text is two asterisks. -/
theorem empty_anchor_heading_witness :
    2 ≤ 4 ∧ (∀ c ∈ ('*' :: ['*']), c = '*' ∨ isJsWhite c = true) ∧
    (cleanHeadingText ('*' :: ['*']) = [] ∧
     anchorOf (cleanHeadingText ('*' :: ['*'])) = [] ∧
     extractHeadings (fun _ => false) 4 [Token.heading 2 ('*' :: ['*']) ('r' :: [])] =
       ([Token.html (headingHtml 2 [] []) ('r' :: [])],
        if (fun _ => false) ([] : List Char) then [⟨[], 2, []⟩] else [])) :=
  ⟨by decide, by decide,
   empty_anchor_heading (fun _ => false) 4 2 ('*' :: ['*']) ('r' :: []) (by decide) (by decide)⟩

/-- C1 (counterexample): an exception raised by the file read (step 3)
propagates out of `convertMdToPdf` instead of being converted to a
failure result: the try block in the source wraps only the Puppeteer
sequence, so the function neither catches this exception nor returns any
result value. -/
theorem convertMdToPdf_propagates_read_error :
    convertMdToPdf errWorld ("input.md".toList) ("out.pdf".toList) chromeOnlyOptions =
      Except.error ⟨("EACCES: permission denied".toList)⟩ ∧
    ∀ r, convertMdToPdf errWorld ("input.md".toList) ("out.pdf".toList) chromeOnlyOptions ≠
      Except.ok r := by
  have h0 : convertMdToPdf errWorld ("input.md".toList) ("out.pdf".toList) chromeOnlyOptions =
      Except.error ⟨("EACCES: permission denied".toList)⟩ := rfl
  exact ⟨h0, fun r h => by rw [h0] at h; exact Except.noConfusion h⟩

/-- C1 (amended): `convertMdToPdf` catches exceptions from the PDF
generation step only: whenever the file read, the tokenizer, the RegExp
construction and the block renderer return normally, the function
returns a `ConversionResult` value and no exception escapes — in
particular an exception thrown by the Puppeteer step (step 9) is always
caught.  Exceptions from steps 3–8 propagate, as the counterexample
shows. -/
theorem convertMdToPdf_catches_pdf_step (w : World) (i o : List Char)
    (opts : ConversionOptions) (raw : List Char) (toks : List Token)
    (flt : List Char → Bool) (body : List Char)
    (hread : w.readFileSync (w.resolve i) = Except.ok raw)
    (hlex : w.lexer (cleanMarkdownContent raw) = Except.ok toks)
    (hre : w.newRegExpI (opts.tocFilter.getD ("Topic|Summary|Section|Detailed".toList)) =
      Except.ok flt)
    (hpar : w.parser (extractHeadings flt 4 toks).1 = Except.ok body) :
    ∃ r, convertMdToPdf w i o opts = Except.ok r := by
  unfold convertMdToPdf
  cases hex : w.existsFile (w.resolve i)
  · simp [hex]
  · simp only [hex, Bool.not_true, Bool.false_eq_true, if_false, ite_false]
    cases hch : jsOrPath opts.chromePath (findChromePath w.existsFile w.platformPaths) with
    | none => exact ⟨_, rfl⟩
    | some cp =>
      simp only [hread, hlex, hre, hpar, bind, Except.bind]
      cases hpdf : w.pdf ⟨cp, generateFullHtml
          (if opts.noToc.getD false then []
           else generateTocHtml (extractHeadings flt 4 toks).2
             (opts.tocTitle.getD ("Table of Contents".toList)))
          body [],
        w.resolve o, opts.format.getD ("A4".toList), opts.landscape.getD false, true,
        opts.marginTop.getD ("25.4mm".toList), opts.marginBottom.getD ("25.4mm".toList),
        opts.marginLeft.getD ("25.4mm".toList), opts.marginRight.getD ("25.4mm".toList),
        true, footerTemplate, headerTemplate⟩ with
      | ok u => exact ⟨_, rfl⟩
      | error e => exact ⟨_, rfl⟩

/-- C1 (witness): the amended theorem applied to a concrete world whose
collaborators all succeed except the Puppeteer step, which throws; the
conversion still returns a result. -/
theorem convertMdToPdf_catches_pdf_step_witness :
    pdfCrashWorld.readFileSync (pdfCrashWorld.resolve ("in.md".toList)) =
      Except.ok ("# hi".toList) ∧
    pdfCrashWorld.lexer (cleanMarkdownContent ("# hi".toList)) = Except.ok [] ∧
    pdfCrashWorld.newRegExpI
      (chromeOnlyOptions.tocFilter.getD ("Topic|Summary|Section|Detailed".toList)) =
      Except.ok (fun _ => false) ∧
    pdfCrashWorld.parser (extractHeadings (fun _ => false) 4 []).1 = Except.ok [] ∧
    ∃ r, convertMdToPdf pdfCrashWorld ("in.md".toList) ("out.pdf".toList) chromeOnlyOptions =
      Except.ok r :=
  ⟨rfl, rfl, rfl, rfl,
   convertMdToPdf_catches_pdf_step pdfCrashWorld ("in.md".toList) ("out.pdf".toList)
     chromeOnlyOptions ("# hi".toList) [] (fun _ => false) [] rfl rfl rfl rfl⟩

end MdToPdf
